import Mathlib

/-!
Verification of the PDF question-answering tutorial pipeline
(`docs/docs/tutorials/pdf_qa.ipynb`).

The notebook wires external library calls into a linear pipeline:
load a PDF into page documents, split each page into overlapping
chunks, index the chunks in a vector store, retrieve the top-matching
chunks for a query, fill them into a chat prompt and return the
model's answer together with the supporting chunks.  The library
internals (PyPDFLoader, RecursiveCharacterTextSplitter, Chroma,
create_retrieval_chain, create_stuff_documents_chain) are not part of
the source tree, so they are modelled from the specification; the
notebook's own cells (the environment-variable setup, the order of the
calls, the absence of any error handler) are translated directly.
-/

/-- Metadata attached by the loader to each page document: the source
file path and the zero-based page index. -/
structure DocMetadata where
  source : String
  page : Nat
deriving DecidableEq

/-- A LangChain Document: a piece of text together with its metadata.
Text is modelled as a list of characters so that lengths and overlaps
are literal character counts. -/
structure Document where
  page_content : List Char
  metadata : DocMetadata
deriving DecidableEq

/-- Modelled from the spec: `PyPDFLoader.load` is the external
file-path-based PDF loader, which produces "a sequence of
page-text-plus-metadata records": one record per page, in page order,
holding the page's extracted text, the source file path and the page
index.  The external PDF parse itself is opaque and enters as the
list `pages` of extracted page texts. -/
def loadAux (file_path : String) (idx : Nat) : List (List Char) → List Document
  | [] => []
  | p :: ps => ⟨p, ⟨file_path, idx⟩⟩ :: loadAux file_path (idx + 1) ps

/-- Modelled from the spec: the loader entry point, page index starting at 0. -/
def PyPDFLoader.load (file_path : String) (pages : List (List Char)) : List Document :=
  loadAux file_path 0 pages

/-- Modelled from the spec: the text splitter configured with
`chunk_size` and `chunk_overlap` splits "text into fixed-size
overlapping chunks" — fuel-driven so that it computes by kernel
reduction; fuel equal to the text length suffices because each
step consumes at least `chunk_size - chunk_overlap ≥ 1` characters. -/
def chunkTextAux (chunk_size chunk_overlap : Nat) : Nat → List Char → List (List Char)
  | 0, t => [t]
  | fuel + 1, t =>
    if t.length ≤ chunk_size ∨ chunk_size ≤ chunk_overlap then [t]
    else t.take chunk_size ::
      chunkTextAux chunk_size chunk_overlap fuel (t.drop (chunk_size - chunk_overlap))

/-- Modelled from the spec: split one text into fixed-size overlapping
chunks; successive chunks start `chunk_size - chunk_overlap` characters
apart, so consecutive chunks share `chunk_overlap` characters. -/
def chunkText (chunk_size chunk_overlap : Nat) (t : List Char) : List (List Char) :=
  chunkTextAux chunk_size chunk_overlap t.length t

/-- Modelled from the spec: `split_documents` maps the splitter over a
list of page documents, producing "a sequence of smaller overlapping
text-chunk records derived from the first"; each chunk record carries
the metadata of the page it was split from. -/
def split_documents (chunk_size chunk_overlap : Nat) (docs : List Document) : List Document :=
  docs.flatMap fun d =>
    (chunkText chunk_size chunk_overlap d.page_content).map fun c => ⟨c, d.metadata⟩

section ChunkLemmas

theorem chunkTextAux_zero (cs co : Nat) (t : List Char) :
    chunkTextAux cs co 0 t = [t] := rfl

theorem chunkTextAux_succ (cs co fuel : Nat) (t : List Char) :
    chunkTextAux cs co (fuel + 1) t =
      if t.length ≤ cs ∨ cs ≤ co then [t]
      else t.take cs :: chunkTextAux cs co fuel (t.drop (cs - co)) := rfl

/-- The fuel of `chunkTextAux` does not matter once it is at least the
text length. -/
theorem chunkTextAux_fuel (cs co : Nat) :
    ∀ fuel t, t.length ≤ fuel →
      chunkTextAux cs co fuel t = chunkTextAux cs co t.length t := by
  intro fuel
  induction fuel using Nat.strong_induction_on with
  | _ fuel ih =>
    intro t ht
    match fuel with
    | 0 => rw [Nat.le_zero.mp ht]
    | fuel + 1 =>
      rw [chunkTextAux_succ]
      by_cases hc : t.length ≤ cs ∨ cs ≤ co
      · rw [if_pos hc]
        cases hL : t.length with
        | zero => rw [chunkTextAux_zero]
        | succ n => rw [chunkTextAux_succ, if_pos hc]
      · rw [if_neg hc]
        have hx := hc
        push_neg at hx
        obtain ⟨hx1, hx2⟩ := hx
        have hd : (t.drop (cs - co)).length = t.length - (cs - co) := List.length_drop ..
        cases hL : t.length with
        | zero => omega
        | succ n =>
          rw [chunkTextAux_succ, if_neg hc]
          have h1 : (t.drop (cs - co)).length ≤ fuel := by omega
          have h2 : (t.drop (cs - co)).length ≤ n := by omega
          rw [ih fuel (Nat.lt_succ_self _) _ h1, ih n (by omega) _ h2]

/-- Unfolding equation for `chunkText`. -/
theorem chunkText_eq (cs co : Nat) (t : List Char) :
    chunkText cs co t =
      if t.length ≤ cs ∨ cs ≤ co then [t]
      else t.take cs :: chunkText cs co (t.drop (cs - co)) := by
  unfold chunkText
  by_cases hc : t.length ≤ cs ∨ cs ≤ co
  · rw [if_pos hc]
    cases hL : t.length with
    | zero => rw [chunkTextAux_zero]
    | succ n => rw [chunkTextAux_succ, if_pos hc]
  · rw [if_neg hc]
    have hx := hc
    push_neg at hx
    obtain ⟨hx1, hx2⟩ := hx
    have hd : (t.drop (cs - co)).length = t.length - (cs - co) := List.length_drop ..
    cases hL : t.length with
    | zero => omega
    | succ n =>
      rw [chunkTextAux_succ, if_neg hc]
      congr 1
      exact chunkTextAux_fuel cs co n _ (by omega)

/-- Recursion principle following the splitter's own recursion: a
property holds of every text if it holds of every text the splitter
returns whole, and is preserved by dropping one stride. -/
theorem chunkText_rec (cs co : Nat) (P : List Char → Prop)
    (base : ∀ t : List Char, t.length ≤ cs ∨ cs ≤ co → P t)
    (step : ∀ t : List Char, cs < t.length → co < cs → P (t.drop (cs - co)) → P t)
    (t : List Char) : P t := by
  suffices h : ∀ n (t : List Char), t.length ≤ n → P t from h t.length t le_rfl
  intro n
  induction n using Nat.strong_induction_on with
  | _ n ih =>
    intro t ht
    by_cases hc : t.length ≤ cs ∨ cs ≤ co
    · exact base t hc
    · have hx := hc
      push_neg at hx
      obtain ⟨hx1, hx2⟩ := hx
      refine step t hx1 hx2 ?_
      have hd : (t.drop (cs - co)).length = t.length - (cs - co) := List.length_drop ..
      exact ih (t.drop (cs - co)).length (by omega) _ le_rfl

/-- Closed form: the `i`-th chunk is the window of width `cs` starting
at position `i * (cs - co)` of the text. -/
theorem chunkText_getElem (cs co : Nat) (hco : co < cs) (t : List Char) :
    ∀ i : Nat, i < (chunkText cs co t).length →
      (chunkText cs co t)[i]? = some ((t.drop (i * (cs - co))).take cs) := by
  induction t using chunkText_rec cs co with
  | base t hb =>
    intro i hi
    have hle : t.length ≤ cs := by omega
    have he : chunkText cs co t = [t] := by rw [chunkText_eq, if_pos (Or.inl hle)]
    rw [he] at hi ⊢
    simp only [List.length_singleton] at hi
    interval_cases i
    simp [List.take_of_length_le hle]
  | step t h1 h2 ih =>
    intro i hi
    have hnc : ¬ (t.length ≤ cs ∨ cs ≤ co) := by omega
    have he : chunkText cs co t = t.take cs :: chunkText cs co (t.drop (cs - co)) := by
      rw [chunkText_eq, if_neg hnc]
    rw [he] at hi ⊢
    match i with
    | 0 => simp
    | i + 1 =>
      simp only [List.length_cons] at hi
      rw [List.getElem?_cons_succ, ih i (by omega), List.drop_drop]
      congr 3
      rw [Nat.succ_mul]
      omega

/-- Whenever a chunk has a successor chunk, the text still extended at
least `cs` characters past that chunk's start position. -/
theorem chunkText_more (cs co : Nat) (hco : co < cs) (t : List Char) :
    ∀ i : Nat, i + 1 < (chunkText cs co t).length →
      cs + i * (cs - co) ≤ t.length := by
  induction t using chunkText_rec cs co with
  | base t hb =>
    intro i hi
    have hle : t.length ≤ cs := by omega
    have he : chunkText cs co t = [t] := by rw [chunkText_eq, if_pos (Or.inl hle)]
    rw [he] at hi
    simp at hi
  | step t h1 h2 ih =>
    intro i hi
    have hnc : ¬ (t.length ≤ cs ∨ cs ≤ co) := by omega
    have he : chunkText cs co t = t.take cs :: chunkText cs co (t.drop (cs - co)) := by
      rw [chunkText_eq, if_neg hnc]
    rw [he] at hi
    simp only [List.length_cons] at hi
    match i with
    | 0 => omega
    | i + 1 =>
      have := ih i (by omega)
      have hd : (t.drop (cs - co)).length = t.length - (cs - co) := List.length_drop ..
      rw [Nat.succ_mul]
      set a := i * (cs - co)
      omega

/-- Every chunk of a split has length at most `cs`. -/
theorem chunkText_mem_length (cs co : Nat) (hco : co < cs) (t : List Char) :
    ∀ c ∈ chunkText cs co t, c.length ≤ cs := by
  induction t using chunkText_rec cs co with
  | base t hb =>
    intro c hc
    have hle : t.length ≤ cs := by omega
    rw [chunkText_eq, if_pos (Or.inl hle)] at hc
    simp at hc
    subst hc
    exact hle
  | step t h1 h2 ih =>
    intro c hc
    have hnc : ¬ (t.length ≤ cs ∨ cs ≤ co) := by omega
    rw [chunkText_eq, if_neg hnc] at hc
    simp only [List.mem_cons] at hc
    rcases hc with hc | hc
    · subst hc
      rw [List.length_take]
      omega
    · exact ih c hc

/-- The splitter always returns at least one chunk. -/
theorem chunkText_ne_nil (cs co : Nat) (t : List Char) :
    chunkText cs co t ≠ [] := by
  rw [chunkText_eq]
  by_cases hc : t.length ≤ cs ∨ cs ≤ co
  · rw [if_pos hc]
    simp
  · rw [if_neg hc]
    simp

/-- The number of chunks is bounded by the length of the text plus
one: the output is a finite sequence for every finite input. -/
theorem chunkText_length_le (cs co : Nat) (t : List Char) :
    (chunkText cs co t).length ≤ t.length + 1 := by
  induction t using chunkText_rec cs co with
  | base t hb =>
    rw [chunkText_eq, if_pos hb]
    simp
  | step t h1 h2 ih =>
    have hnc : ¬ (t.length ≤ cs ∨ cs ≤ co) := by omega
    rw [chunkText_eq, if_neg hnc]
    have hd : (t.drop (cs - co)).length = t.length - (cs - co) := List.length_drop ..
    simp only [List.length_cons]
    omega

/-- Consecutive chunks overlap in exactly `co` characters: the last
`co` characters of a full chunk are the first `co` characters of its
successor. -/
theorem chunkText_overlap (cs co : Nat) (hco : co < cs) (t : List Char)
    (i : Nat) (c c' : List Char)
    (hc : (chunkText cs co t)[i]? = some c)
    (hc' : (chunkText cs co t)[i + 1]? = some c') :
    c.length = cs ∧ c.drop (c.length - co) = c'.take co := by
  have hi' : i + 1 < (chunkText cs co t).length := by
    by_contra h
    push_neg at h
    rw [List.getElem?_eq_none h] at hc'
    exact Option.noConfusion hc'
  have hi : i < (chunkText cs co t).length := by omega
  have hmore := chunkText_more cs co hco t i hi'
  rw [chunkText_getElem cs co hco t i hi] at hc
  rw [chunkText_getElem cs co hco t (i + 1) hi'] at hc'
  have hdl : (t.drop (i * (cs - co))).length = t.length - i * (cs - co) :=
    List.length_drop ..
  have hceq : c = (t.drop (i * (cs - co))).take cs :=
    (Option.some_injective _ hc).symm
  have hceq' : c' = (t.drop ((i + 1) * (cs - co))).take cs :=
    (Option.some_injective _ hc').symm
  have hclen : c.length = cs := by
    rw [hceq, List.length_take, hdl]
    omega
  refine ⟨hclen, ?_⟩
  rw [hclen, hceq, hceq', List.drop_take, List.drop_drop, List.take_take, Nat.succ_mul]
  have hmin : co ⊓ cs = co := inf_eq_left.mpr (le_of_lt hco)
  rw [hmin]
  congr 1
  omega

end ChunkLemmas

/-- Modelled from the spec: the vector-store client's in-memory handle,
holding the indexed chunk documents.  Embedding computation and vector
similarity search are external and opaque; the store keeps the
documents it was built from. -/
structure VectorStore where
  docs : List Document
deriving DecidableEq

/-- Modelled from the spec: `Chroma.from_documents` embeds and indexes
the chunk documents in a similarity-searchable store. -/
def Chroma.from_documents (documents : List Document) : VectorStore :=
  ⟨documents⟩

/-- Modelled from the spec: similarity ranking is delegated to the
opaque embedding service, which enters as a score function; documents
are ordered by decreasing score by insertion. -/
def insertRanked (score : Document → Nat) (d : Document) : List Document → List Document
  | [] => [d]
  | e :: es => if score e ≤ score d then d :: e :: es else e :: insertRanked score d es

/-- Modelled from the spec: rank the stored documents by decreasing
similarity score. -/
def rankByScore (score : Document → Nat) (docs : List Document) : List Document :=
  docs.foldr (insertRanked score) []

/-- Modelled from the spec: `vectorstore.as_retriever()` with no
arguments retrieves "top-matching chunks for a query" using the
library's default of the 4 highest-scoring documents. -/
def VectorStore.as_retriever (vs : VectorStore) (score : Document → Nat) : List Document :=
  (rankByScore score vs.docs).take 4

/-- The role of a chat message, from the notebook's prompt template:
`("system", system_prompt)` then `("human", "{input}")`. -/
inductive Role where
  | system : Role
  | human : Role
deriving DecidableEq

/-- A chat message as assembled by the prompt template. -/
structure Message where
  role : Role
  content : String
deriving DecidableEq

/-- The fixed text of the notebook's system prompt before the
`{context}` placeholder. -/
def system_prompt_body : String :=
  "You are an assistant for question-answering tasks. " ++
  "Use the following pieces of retrieved context to answer " ++
  "the question. If you don't know the answer, say that you " ++
  "don't know. Use three sentences maximum and keep the " ++
  "answer concise." ++
  "\n\n"

/-- The notebook's system prompt template, ending in the `{context}`
placeholder. -/
def system_prompt : String := system_prompt_body ++ "{context}"

/-- Modelled from the spec: `create_stuff_documents_chain` joins the
retrieved chunk texts, separated by blank lines, to fill the prompt's
`{context}` slot. -/
def format_docs (context : List Document) : String :=
  String.intercalate "\n\n" (context.map fun d => String.mk d.page_content)

/-- Modelled from the spec: the chat prompt template formats its
messages by replacing the `{context}` placeholder at the end of the
system template with the joined chunk texts and the `{input}`
placeholder of the human message with the query. -/
def formatPrompt (context : List Document) (query : String) : List Message :=
  [⟨Role.system, system_prompt_body ++ format_docs context⟩, ⟨Role.human, query⟩]

/-- The result record of the retrieval chain, with exactly the three
keys the notebook's output shows: `input`, `context`, `answer`. -/
structure RagResult where
  input : String
  context : List Document
  answer : String
deriving DecidableEq

/-- Modelled from the spec: `create_stuff_documents_chain llm prompt`
sends the formatted prompt to the hosted chat model (opaque, entering
as the function `llm`) and returns its answer string. -/
def create_stuff_documents_chain (llm : List Message → String)
    (query : String) (context : List Document) : String :=
  llm (formatPrompt context query)

/-- Modelled from the spec: `create_retrieval_chain retriever combine`
first retrieves the chunks for the query, then combines them into the
answer, returning the record with the original question, the retrieved
context and the generated answer. -/
def create_retrieval_chain (retriever : String → List Document)
    (combine : String → List Document → String) (query : String) : RagResult :=
  let context := retriever query
  { input := query, context := context, answer := combine query context }

/-- The full notebook pipeline, cells 3 through 11 in order: load the
PDF pages, split them with `chunk_size = 1000` and
`chunk_overlap = 200`, index the splits, build the retriever and the
two chains, and invoke the retrieval chain on the query.  The hosted
chat model and the embedding similarity are opaque parameters. -/
def pdf_qa (llm : List Message → String) (sim : String → Document → Nat)
    (file_path : String) (pages : List (List Char)) (query : String) : RagResult :=
  let docs := PyPDFLoader.load file_path pages
  let splits := split_documents 1000 200 docs
  let vectorstore := Chroma.from_documents splits
  let retriever := fun q => vectorstore.as_retriever (sim q)
  let question_answer_chain := create_stuff_documents_chain llm
  create_retrieval_chain retriever question_answer_chain query

/-- The observable events of one run of the notebook, in the order of
its code cells: each constructor is one library call the script
makes. -/
inductive Event where
  | loaderLoad : Event
  | printLen : Event
  | printContent : Event
  | printMeta : Event
  | getpassAnthropic : Event
  | setEnvAnthropic : Event
  | chatAnthropicInit : Event
  | getpassOpenAI : Event
  | setEnvOpenAI : Event
  | splitDocuments : Event
  | chromaFromDocuments : Event
  | asRetriever : Event
  | stuffChainInit : Event
  | retrievalChainInit : Event
  | chainInvoke : Event
deriving DecidableEq

/-- The sequence of library calls the notebook's code cells execute,
as a function of which environment variables are present in the
initial environment (translated from the notebook cells: the two
`if "..._API_KEY" not in os.environ` blocks are its only branches). -/
def scriptTrace (env : List String) : List Event :=
  [Event.loaderLoad, Event.printLen, Event.printContent, Event.printMeta] ++
  (if "ANTHROPIC_API_KEY" ∈ env then [] else [Event.getpassAnthropic, Event.setEnvAnthropic]) ++
  [Event.chatAnthropicInit] ++
  (if "OPENAI_API_KEY" ∈ env then [] else [Event.getpassOpenAI, Event.setEnvOpenAI]) ++
  [Event.splitDocuments, Event.chromaFromDocuments, Event.asRetriever,
   Event.stuffChainInit, Event.retrievalChainInit, Event.chainInvoke]

/-- Translated from the notebook's key-setup cells: if the variable is
present in the environment it is left untouched, otherwise it is set
from the interactive `getpass` input.  The environment is an
association list from variable names to values. -/
def setIfAbsent (key val : String) (env : List (String × String)) : List (String × String) :=
  if (env.lookup key).isSome then env else (key, val) :: env

/-- The net effect of the notebook on the process environment: the
ANTHROPIC key block (cell 6) followed by the OPENAI key block
(cell 8); no other cell touches the environment. -/
def scriptEnv (aInput oInput : String) (env : List (String × String)) :
    List (String × String) :=
  setIfAbsent "OPENAI_API_KEY" oInput (setIfAbsent "ANTHROPIC_API_KEY" aInput env)

/-- The notebook pipeline with every library call fallible, composed
exactly as the cells compose: one after the other with no `try`,
no `except`, no retry (there is none anywhere in the notebook).
`E` is the type of errors the underlying libraries raise. -/
def runPipeline {E : Type} (loadStep : Except E (List Document))
    (splitStep : List Document → Except E (List Document))
    (indexStep : List Document → Except E VectorStore)
    (retrieveStep : VectorStore → String → Except E (List Document))
    (generateStep : List Message → Except E String)
    (query : String) : Except E RagResult := do
  let docs ← loadStep
  let splits ← splitStep docs
  let vectorstore ← indexStep splits
  let context ← retrieveStep vectorstore query
  let answer ← generateStep (formatPrompt context query)
  pure { input := query, context := context, answer := answer }

section PipelineLemmas

theorem lookup_cons (k a v : String) (es : List (String × String)) :
    ((a, v) :: es).lookup k = if k = a then some v else es.lookup k := by
  by_cases h : k = a
  · subst h
    simp [List.lookup]
  · have hb : (k == a) = false := beq_eq_false_iff_ne.mpr h
    simp [List.lookup, hb, h]

theorem mem_insertRanked (score : Document → Nat) (d x : Document) :
    ∀ l : List Document, x ∈ insertRanked score d l → x = d ∨ x ∈ l := by
  intro l
  induction l with
  | nil =>
    intro hx
    simp [insertRanked] at hx
    exact Or.inl hx
  | cons e es ih =>
    intro hx
    unfold insertRanked at hx
    by_cases h : score e ≤ score d
    · rw [if_pos h] at hx
      simp only [List.mem_cons] at hx
      rcases hx with hx | hx | hx
      · exact Or.inl hx
      · exact Or.inr (by simp [hx])
      · exact Or.inr (by simp [hx])
    · rw [if_neg h] at hx
      simp only [List.mem_cons] at hx
      rcases hx with hx | hx
      · exact Or.inr (by simp [hx])
      · rcases ih hx with hx' | hx'
        · exact Or.inl hx'
        · exact Or.inr (by simp [hx'])

theorem mem_rankByScore (score : Document → Nat) (x : Document) :
    ∀ l : List Document, x ∈ rankByScore score l → x ∈ l := by
  intro l
  induction l with
  | nil =>
    intro hx
    simp [rankByScore] at hx
  | cons e es ih =>
    intro hx
    have hx' : x ∈ insertRanked score e (rankByScore score es) := hx
    rcases mem_insertRanked score e x _ hx' with h | h
    · simp [h]
    · exact List.mem_cons_of_mem _ (ih h)

theorem loadAux_length (file_path : String) :
    ∀ (pages : List (List Char)) (idx : Nat),
      (loadAux file_path idx pages).length = pages.length := by
  intro pages
  induction pages with
  | nil => intro idx; rfl
  | cons p ps ih =>
    intro idx
    simp only [loadAux, List.length_cons, ih]

theorem loadAux_getElem (file_path : String) :
    ∀ (pages : List (List Char)) (idx i : Nat),
      (loadAux file_path idx pages)[i]? =
        pages[i]?.map fun p => ⟨p, ⟨file_path, idx + i⟩⟩ := by
  intro pages
  induction pages with
  | nil => intro idx i; simp [loadAux]
  | cons p ps ih =>
    intro idx i
    match i with
    | 0 => simp [loadAux]
    | i + 1 =>
      simp only [loadAux, List.getElem?_cons_succ, ih (idx + 1) i]
      rw [show idx + 1 + i = idx + (i + 1) from by omega]

theorem mem_split_documents (cs co : Nat) (docs : List Document) (c : Document) :
    c ∈ split_documents cs co docs →
      ∃ d ∈ docs, c.metadata = d.metadata ∧
        c.page_content ∈ chunkText cs co d.page_content := by
  intro hc
  unfold split_documents at hc
  rw [List.mem_flatMap] at hc
  obtain ⟨d, hd, hcd⟩ := hc
  rw [List.mem_map] at hcd
  obtain ⟨chunk, hchunk, hceq⟩ := hcd
  refine ⟨d, hd, ?_, ?_⟩
  · rw [← hceq]
  · rw [← hceq]
    exact hchunk

theorem pdf_qa_context (llm : List Message → String) (sim : String → Document → Nat)
    (file_path : String) (pages : List (List Char)) (query : String) :
    (pdf_qa llm sim file_path pages query).context =
      (rankByScore (sim query)
        (split_documents 1000 200 (PyPDFLoader.load file_path pages))).take 4 := rfl

end PipelineLemmas

/-- C1: for every page document, the splitter configured with
`chunk_size = 1000` and `chunk_overlap = 200` produces chunks of at
most 1000 characters via `split_documents`, and consecutive chunks of
the same page overlap by at most 200 characters: chunk `i` is the
1000-character window of the page text starting at position `i * 800`
and its successor starts 800 = 1000 - 200 positions later, so the two
windows share exactly the 200 positions where the earlier chunk's last
200 characters equal the later chunk's first 200. -/
theorem spec_c1_split_fixed_size_overlap :
    (∀ (docs : List Document), ∀ c ∈ split_documents 1000 200 docs,
      c.page_content.length ≤ 1000) ∧
    (∀ (d : Document) (i : Nat) (c c' : List Char),
      (chunkText 1000 200 d.page_content)[i]? = some c →
      (chunkText 1000 200 d.page_content)[i + 1]? = some c' →
      c.length = 1000 ∧
      c = (d.page_content.drop (i * 800)).take 1000 ∧
      c' = (d.page_content.drop (i * 800 + 800)).take 1000 ∧
      c.drop (c.length - 200) = c'.take 200) := by
  constructor
  · intro docs c hc
    obtain ⟨d, _, _, hmem⟩ := mem_split_documents 1000 200 docs c hc
    exact chunkText_mem_length 1000 200 (by omega) d.page_content c.page_content hmem
  · intro d i c c' hc hc'
    obtain ⟨hlen, hov⟩ := chunkText_overlap 1000 200 (by omega) d.page_content i c c' hc hc'
    have hi' : i + 1 < (chunkText 1000 200 d.page_content).length := by
      by_contra h
      push_neg at h
      rw [List.getElem?_eq_none h] at hc'
      exact Option.noConfusion hc'
    have hi : i < (chunkText 1000 200 d.page_content).length := by omega
    have h1 := chunkText_getElem 1000 200 (by omega) d.page_content i hi
    have h2 := chunkText_getElem 1000 200 (by omega) d.page_content (i + 1) hi'
    rw [hc] at h1
    rw [hc'] at h2
    have hceq : c = (d.page_content.drop (i * (1000 - 200))).take 1000 :=
      Option.some_injective _ h1
    have hceq' : c' = (d.page_content.drop ((i + 1) * (1000 - 200))).take 1000 :=
      Option.some_injective _ h2
    have ha : i * (1000 - 200) = i * 800 := by omega
    have hb : (i + 1) * (1000 - 200) = i * 800 + 800 := by omega
    refine ⟨hlen, ?_, ?_, hov⟩
    · rw [hceq, ha]
    · rw [hceq', hb]

set_option maxRecDepth 100000

/-- Witness for C1 at a concrete page of 1100 identical characters:
its first chunk is the full 1000-character window at position 0, its
second chunk is the window at position 800, and the first chunk's last
200 characters are the second chunk's first 200. -/
theorem spec_c1_witness :
    (⟨List.replicate 1000 'a', ⟨"f", 0⟩⟩ : Document).page_content.length ≤ 1000 ∧
    ((List.replicate 1000 'a').length = 1000 ∧
      List.replicate 1000 'a' = ((List.replicate 1100 'a').drop (0 * 800)).take 1000 ∧
      List.replicate 300 'a' = ((List.replicate 1100 'a').drop (0 * 800 + 800)).take 1000 ∧
      (List.replicate 1000 'a').drop ((List.replicate 1000 'a').length - 200) =
        (List.replicate 300 'a').take 200) :=
  ⟨spec_c1_split_fixed_size_overlap.1 [⟨List.replicate 1100 'a', ⟨"f", 0⟩⟩]
      ⟨List.replicate 1000 'a', ⟨"f", 0⟩⟩ (by decide),
   spec_c1_split_fixed_size_overlap.2 ⟨List.replicate 1100 'a', ⟨"f", 0⟩⟩ 0
      (List.replicate 1000 'a') (List.replicate 300 'a') (by decide) (by decide)⟩

/-- C2: the record returned by the retrieval chain's `invoke` holds
exactly the original question unchanged under `input`, the retrieved
chunk documents under `context`, and the generated answer string under
`answer`. -/
theorem spec_c2_invoke_result_record (llm : List Message → String)
    (sim : String → Document → Nat) (file_path : String)
    (pages : List (List Char)) (query : String) :
    (pdf_qa llm sim file_path pages query).input = query ∧
    (pdf_qa llm sim file_path pages query).context =
      (Chroma.from_documents
        (split_documents 1000 200 (PyPDFLoader.load file_path pages))).as_retriever
        (sim query) ∧
    (pdf_qa llm sim file_path pages query).answer =
      llm (formatPrompt (pdf_qa llm sim file_path pages query).context query) :=
  ⟨rfl, rfl, rfl⟩

/-- C3: the loader returns one record per page of the PDF, in page
order, each holding that page's extracted text together with the
source file path and the page index. -/
theorem spec_c3_loader_page_records (file_path : String) (pages : List (List Char)) :
    (PyPDFLoader.load file_path pages).length = pages.length ∧
    ∀ i : Nat, (PyPDFLoader.load file_path pages)[i]? =
      pages[i]?.map fun p => ⟨p, ⟨file_path, i⟩⟩ := by
  constructor
  · exact loadAux_length file_path pages 0
  · intro i
    have h := loadAux_getElem file_path pages 0 i
    simpa using h

/-- C4: the chain first retrieves the top-matching chunks for the
query from the vector store, and the prompt sent to the chat model is
the system template with its `{context}` slot filled by exactly those
retrieved chunks, followed by a human message equal to the query. -/
theorem spec_c4_retrieve_then_prompt (llm : List Message → String)
    (sim : String → Document → Nat) (file_path : String)
    (pages : List (List Char)) (query : String) :
    (pdf_qa llm sim file_path pages query).context =
      (Chroma.from_documents
        (split_documents 1000 200 (PyPDFLoader.load file_path pages))).as_retriever
        (sim query) ∧
    (pdf_qa llm sim file_path pages query).answer =
      llm [⟨Role.system, system_prompt_body ++
              format_docs ((Chroma.from_documents
                (split_documents 1000 200 (PyPDFLoader.load file_path pages))).as_retriever
                (sim query))⟩,
           ⟨Role.human, query⟩] ∧
    system_prompt = system_prompt_body ++ "{context}" :=
  ⟨rfl, rfl, rfl⟩

/-- C5 counterexample: the script is not a static pipeline free of
state-dependent branches — two initial environments that differ in the
presence of the API-key variables yield different sequences of library
calls (the `getpass` and `os.environ` assignment calls happen in one
run and not the other). -/
theorem spec_c5_counterexample :
    scriptTrace ["ANTHROPIC_API_KEY", "OPENAI_API_KEY"] ≠ scriptTrace [] := by
  decide

/-- C5 amended: the script's only branches are the two API-key
presence checks: any two initial environments that agree on the
presence of `ANTHROPIC_API_KEY` and of `OPENAI_API_KEY` produce the
same sequence of library calls. -/
theorem spec_c5_amended (e1 e2 : List String)
    (hA : ("ANTHROPIC_API_KEY" ∈ e1) ↔ ("ANTHROPIC_API_KEY" ∈ e2))
    (hO : ("OPENAI_API_KEY" ∈ e1) ↔ ("OPENAI_API_KEY" ∈ e2)) :
    scriptTrace e1 = scriptTrace e2 := by
  simp only [scriptTrace]
  rw [if_congr hA rfl rfl, if_congr hO rfl rfl]

/-- Witness for C5 amended: two concrete environments that agree on
the two key variables but differ elsewhere give the same trace. -/
theorem spec_c5_amended_witness :
    scriptTrace ["OPENAI_API_KEY", "PATH"] = scriptTrace ["OPENAI_API_KEY"] :=
  spec_c5_amended ["OPENAI_API_KEY", "PATH"] ["OPENAI_API_KEY"] (by decide) (by decide)

theorem except_bind_ok {E A B : Type} (a : A) (f : A → Except E B) :
    (Except.ok a : Except E A) >>= f = f a := rfl

theorem except_bind_error {E A B : Type} (e : E) (f : A → Except E B) :
    (Except.error e : Except E A) >>= f = Except.error e := rfl

theorem except_map_error {E A B : Type} (e : E) (f : A → B) :
    f <$> (Except.error e : Except E A) = Except.error e := rfl

/-- C6: every error raised by an underlying library step propagates
unchanged through the pipeline: whichever step fails first, the run
terminates with exactly that step's error. -/
theorem spec_c6_error_propagation {E : Type} (e : E)
    (loadStep : Except E (List Document))
    (splitStep : List Document → Except E (List Document))
    (indexStep : List Document → Except E VectorStore)
    (retrieveStep : VectorStore → String → Except E (List Document))
    (generateStep : List Message → Except E String)
    (query : String) :
    (loadStep = Except.error e →
      runPipeline loadStep splitStep indexStep retrieveStep generateStep query =
        Except.error e) ∧
    (∀ docs, loadStep = Except.ok docs → splitStep docs = Except.error e →
      runPipeline loadStep splitStep indexStep retrieveStep generateStep query =
        Except.error e) ∧
    (∀ docs splits, loadStep = Except.ok docs → splitStep docs = Except.ok splits →
      indexStep splits = Except.error e →
      runPipeline loadStep splitStep indexStep retrieveStep generateStep query =
        Except.error e) ∧
    (∀ docs splits vs, loadStep = Except.ok docs → splitStep docs = Except.ok splits →
      indexStep splits = Except.ok vs → retrieveStep vs query = Except.error e →
      runPipeline loadStep splitStep indexStep retrieveStep generateStep query =
        Except.error e) ∧
    (∀ docs splits vs context, loadStep = Except.ok docs →
      splitStep docs = Except.ok splits → indexStep splits = Except.ok vs →
      retrieveStep vs query = Except.ok context →
      generateStep (formatPrompt context query) = Except.error e →
      runPipeline loadStep splitStep indexStep retrieveStep generateStep query =
        Except.error e) := by
  refine ⟨?_, ?_, ?_, ?_, ?_⟩
  · intro h1
    simp only [runPipeline, h1, except_bind_error]
  · intro docs h1 h2
    simp only [runPipeline, h1, except_bind_ok, h2, except_bind_error]
  · intro docs splits h1 h2 h3
    simp only [runPipeline, h1, except_bind_ok, h2, h3, except_bind_error]
  · intro docs splits vs h1 h2 h3 h4
    simp only [runPipeline, h1, except_bind_ok, h2, h3, h4, except_bind_error]
  · intro docs splits vs context h1 h2 h3 h4 h5
    simp only [runPipeline, h1, except_bind_ok, h2, h3, h4, h5, except_map_error, except_bind_error]

/-- Witness for C6: a concrete error string fails the run at each of
the five stages and surfaces unchanged. -/
theorem spec_c6_witness :
    runPipeline (Except.error "boom") (fun _ => Except.ok []) (fun _ => Except.ok ⟨[]⟩)
        (fun _ _ => Except.ok []) (fun _ => Except.ok "") "q" = Except.error "boom" ∧
    runPipeline (Except.ok []) (fun _ => Except.error "boom") (fun _ => Except.ok ⟨[]⟩)
        (fun _ _ => Except.ok []) (fun _ => Except.ok "") "q" = Except.error "boom" ∧
    runPipeline (Except.ok []) (fun _ => Except.ok []) (fun _ => Except.error "boom")
        (fun _ _ => Except.ok []) (fun _ => Except.ok "") "q" = Except.error "boom" ∧
    runPipeline (Except.ok []) (fun _ => Except.ok []) (fun _ => Except.ok ⟨[]⟩)
        (fun _ _ => Except.error "boom") (fun _ => Except.ok "") "q" = Except.error "boom" ∧
    runPipeline (Except.ok []) (fun _ => Except.ok []) (fun _ => Except.ok ⟨[]⟩)
        (fun _ _ => Except.ok []) (fun _ => Except.error "boom") "q" = Except.error "boom" :=
  ⟨(spec_c6_error_propagation "boom" (Except.error "boom") (fun _ => Except.ok [])
      (fun _ => Except.ok ⟨[]⟩) (fun _ _ => Except.ok []) (fun _ => Except.ok "") "q").1 rfl,
   (spec_c6_error_propagation "boom" (Except.ok []) (fun _ => Except.error "boom")
      (fun _ => Except.ok ⟨[]⟩) (fun _ _ => Except.ok []) (fun _ => Except.ok "") "q").2.1
      [] rfl rfl,
   (spec_c6_error_propagation "boom" (Except.ok []) (fun _ => Except.ok [])
      (fun _ => Except.error "boom") (fun _ _ => Except.ok []) (fun _ => Except.ok "") "q").2.2.1
      [] [] rfl rfl rfl,
   (spec_c6_error_propagation "boom" (Except.ok []) (fun _ => Except.ok [])
      (fun _ => Except.ok ⟨[]⟩) (fun _ _ => Except.error "boom") (fun _ => Except.ok "") "q").2.2.2.1
      [] [] ⟨[]⟩ rfl rfl rfl rfl,
   (spec_c6_error_propagation "boom" (Except.ok []) (fun _ => Except.ok [])
      (fun _ => Except.ok ⟨[]⟩) (fun _ _ => Except.ok []) (fun _ => Except.error "boom") "q").2.2.2.2
      [] [] ⟨[]⟩ [] rfl rfl rfl rfl rfl⟩

theorem setIfAbsent_lookup_self (key v : String) (env : List (String × String)) :
    (setIfAbsent key v env).lookup key = some ((env.lookup key).getD v) := by
  unfold setIfAbsent
  by_cases h : (env.lookup key).isSome
  · rw [if_pos h]
    obtain ⟨w, hw⟩ := Option.isSome_iff_exists.mp h
    rw [hw]
    rfl
  · rw [if_neg h]
    rw [Option.not_isSome_iff_eq_none] at h
    rw [lookup_cons, if_pos rfl, h]
    rfl

theorem setIfAbsent_lookup_other (key v k : String) (hk : k ≠ key)
    (env : List (String × String)) :
    (setIfAbsent key v env).lookup k = env.lookup k := by
  unfold setIfAbsent
  by_cases h : (env.lookup key).isSome
  · rw [if_pos h]
  · rw [if_neg h, lookup_cons, if_neg hk]

/-- C7: the two API-key environment variables are each left unchanged
when present and set from the interactive input when absent, each is
set by the time the corresponding client is constructed, and no other
environment variable is modified. -/
theorem spec_c7_env_key_frame (aInput oInput : String) (env : List (String × String)) :
    (scriptEnv aInput oInput env).lookup "ANTHROPIC_API_KEY" =
      some ((env.lookup "ANTHROPIC_API_KEY").getD aInput) ∧
    ((setIfAbsent "ANTHROPIC_API_KEY" aInput env).lookup "ANTHROPIC_API_KEY").isSome = true ∧
    (scriptEnv aInput oInput env).lookup "OPENAI_API_KEY" =
      some ((env.lookup "OPENAI_API_KEY").getD oInput) ∧
    ((scriptEnv aInput oInput env).lookup "OPENAI_API_KEY").isSome = true ∧
    ∀ k : String, k ≠ "ANTHROPIC_API_KEY" → k ≠ "OPENAI_API_KEY" →
      (scriptEnv aInput oInput env).lookup k = env.lookup k := by
  have hne : ("ANTHROPIC_API_KEY" : String) ≠ "OPENAI_API_KEY" := by decide
  refine ⟨?_, ?_, ?_, ?_, ?_⟩
  · rw [scriptEnv, setIfAbsent_lookup_other _ _ _ hne _, setIfAbsent_lookup_self]
  · rw [setIfAbsent_lookup_self]
    rfl
  · rw [scriptEnv, setIfAbsent_lookup_self, setIfAbsent_lookup_other _ _ _ hne.symm]
  · rw [scriptEnv, setIfAbsent_lookup_self]
    rfl
  · intro k hk1 hk2
    rw [scriptEnv, setIfAbsent_lookup_other _ _ _ hk2, setIfAbsent_lookup_other _ _ _ hk1]

/-- Witness for C7: with a concrete environment holding only `PATH`,
both keys end up set from the interactive inputs, a preexisting
`ANTHROPIC_API_KEY` value survives, and `PATH` is untouched. -/
theorem spec_c7_witness :
    (scriptEnv "ak" "ok" [("PATH", "p")]).lookup "ANTHROPIC_API_KEY" = some "ak" ∧
    (scriptEnv "ak" "ok" [("ANTHROPIC_API_KEY", "x")]).lookup "ANTHROPIC_API_KEY" = some "x" ∧
    (scriptEnv "ak" "ok" [("PATH", "p")]).lookup "OPENAI_API_KEY" = some "ok" ∧
    (scriptEnv "ak" "ok" [("PATH", "p")]).lookup "PATH" = some "p" :=
  ⟨((spec_c7_env_key_frame "ak" "ok" [("PATH", "p")]).1).trans (by decide),
   ((spec_c7_env_key_frame "ak" "ok" [("ANTHROPIC_API_KEY", "x")]).1).trans (by decide),
   ((spec_c7_env_key_frame "ak" "ok" [("PATH", "p")]).2.2.1).trans (by decide),
   ((spec_c7_env_key_frame "ak" "ok" [("PATH", "p")]).2.2.2.2 "PATH" (by decide)
      (by decide)).trans rfl⟩

/-- C8: metadata is preserved end to end: every chunk document in the
result's context carries, unchanged, the metadata of the page document
it was split from. -/
theorem spec_c8_metadata_preserved (llm : List Message → String)
    (sim : String → Document → Nat) (file_path : String)
    (pages : List (List Char)) (query : String) :
    ∀ c ∈ (pdf_qa llm sim file_path pages query).context,
      ∃ d ∈ PyPDFLoader.load file_path pages,
        c.metadata = d.metadata ∧ c.page_content ∈ chunkText 1000 200 d.page_content := by
  intro c hc
  rw [pdf_qa_context] at hc
  have h1 : c ∈ rankByScore (sim query)
      (split_documents 1000 200 (PyPDFLoader.load file_path pages)) :=
    List.take_subset 4 _ hc
  have h2 : c ∈ split_documents 1000 200 (PyPDFLoader.load file_path pages) :=
    mem_rankByScore (sim query) c _ h1
  exact mem_split_documents 1000 200 _ c h2

/-- Witness for C8 at a one-page input: the single context chunk comes
from page 0 of the file and keeps its metadata. -/
theorem spec_c8_witness :
    ∃ d ∈ PyPDFLoader.load "f" [['h', 'i']],
      (⟨['h', 'i'], ⟨"f", 0⟩⟩ : Document).metadata = d.metadata ∧
      (⟨['h', 'i'], ⟨"f", 0⟩⟩ : Document).page_content ∈
        chunkText 1000 200 d.page_content :=
  spec_c8_metadata_preserved (fun _ => "") (fun _ _ => 0) "f" [['h', 'i']] "q"
    ⟨['h', 'i'], ⟨"f", 0⟩⟩ (by decide)

/-- C9: the retriever created with no arguments returns at most 4
documents (the library default top-k), so the result's context holds
at most 4 chunk documents. -/
theorem spec_c9_retriever_top4 (vs : VectorStore) (score : Document → Nat)
    (llm : List Message → String) (sim : String → Document → Nat)
    (file_path : String) (pages : List (List Char)) (query : String) :
    (vs.as_retriever score).length ≤ 4 ∧
    (pdf_qa llm sim file_path pages query).context.length ≤ 4 := by
  constructor
  · rw [VectorStore.as_retriever, List.length_take]
    exact min_le_left _ _
  · rw [pdf_qa_context, List.length_take]
    exact min_le_left _ _

/-- C10: splitting terminates because the overlap 200 is strictly less
than the chunk size 1000: whenever the splitter recurses it does so on
a strictly shorter text, the output is a finite sequence bounded by
the input length, and every page yields at least one chunk. -/
theorem spec_c10_splitter_terminates :
    (∀ t : List Char, 1000 < t.length →
      chunkText 1000 200 t = t.take 1000 :: chunkText 1000 200 (t.drop 800)) ∧
    (∀ t : List Char, 1000 < t.length → (t.drop 800).length < t.length) ∧
    (∀ t : List Char, (chunkText 1000 200 t).length ≤ t.length + 1) ∧
    (∀ t : List Char, t ≠ [] → chunkText 1000 200 t ≠ []) := by
  refine ⟨?_, ?_, ?_, ?_⟩
  · intro t ht
    rw [chunkText_eq, if_neg (by omega)]
  · intro t ht
    rw [List.length_drop]
    omega
  · intro t
    exact chunkText_length_le 1000 200 t
  · intro t _
    exact chunkText_ne_nil 1000 200 t

/-- Witness for C10: a concrete 1100-character page makes strict
progress into a 300-character remainder, and a one-character page
yields a chunk. -/
theorem spec_c10_witness :
    chunkText 1000 200 (List.replicate 1100 'a') =
      (List.replicate 1100 'a').take 1000 ::
        chunkText 1000 200 ((List.replicate 1100 'a').drop 800) ∧
    ((List.replicate 1100 'a').drop 800).length < (List.replicate 1100 'a').length ∧
    (chunkText 1000 200 (List.replicate 1100 'a')).length ≤
      (List.replicate 1100 'a').length + 1 ∧
    chunkText 1000 200 ['h'] ≠ [] :=
  ⟨spec_c10_splitter_terminates.1 (List.replicate 1100 'a') (by decide),
   spec_c10_splitter_terminates.2.1 (List.replicate 1100 'a') (by decide),
   spec_c10_splitter_terminates.2.2.1 (List.replicate 1100 'a'),
   spec_c10_splitter_terminates.2.2.2 ['h'] (by decide)⟩
